import Mathlib

/-!
Verification development for the `dwn` plan model and container-lifecycle
orchestrator (`dwn/plan.py`, `dwn/config.py`).

The Python code is shallowly embedded: YAML scalar/mapping/sequence values
become the inductive `Val`, the mutable `Plan` object becomes the record
`PlanState` transformed by pure functions, the container runtime becomes an
explicit client model (`NetClient`, `ContainerRec`), and container starts or
stops become explicit traces of actions.  Machine strings are Lean `String`
(a wrapper around `List Char`), and Python's `str.split('_')` and
`str(int)` are embedded character by character.
-/

namespace Dwn

/- YAML values as they occur in plan files.  Sequences are encoded with a
mutually inductive list type so that all recursion over values stays
structural (and therefore kernel-reducible).  Integer-keyed mappings (the
`ports` shape) carry their entries in document order, as Python dicts do. -/
mutual
/-- A YAML scalar, integer-keyed mapping, or sequence. -/
inductive Val : Type where
  | vstr  (s : String)
  | vnat  (n : Nat)
  | vbool (b : Bool)
  | vmap  (entries : List (Nat × Nat))
  | vlist (items : ValList)
  deriving Repr, DecidableEq
/-- A YAML sequence of values. -/
inductive ValList : Type where
  | nil : ValList
  | cons (head : Val) (tail : ValList) : ValList
  deriving Repr, DecidableEq
end

/-- A raw plan document: the dict produced by `yaml.load` on a plan file,
keyed by strings, in document order. -/
abbrev RawDict : Type := List (String × Val)

/-- The mutable state of a `Plan` object.  `volumes` handling
(`Plan.validate_volumes`) involves filesystem path resolution and is not
modelled; no claim in this development concerns volumes. -/
structure PlanState where
  plan_path : String
  valid : Bool
  name : String
  dockerfile : String
  command : String
  ports : Val
  exposed_ports : List (Nat × Nat)
  environment : List String
  detach : Bool
  tty : Bool
  image : String
  version : String
  deriving Repr, DecidableEq

/-- `Plan.__init__`: fresh state for a plan loaded from path `p`. -/
def initPlan (p : String) : PlanState :=
  { plan_path := p
    valid := true
    name := ""
    image := ""
    dockerfile := ""
    command := ""
    ports := .vmap []
    exposed_ports := []
    environment := []
    detach := false
    tty := false
    version := "latest" }

/-- `Plan.required_keys`. -/
def requiredKeys : List String := ["name", "image"]

/-- `Plan.has_required_keys`: `self.required_keys.issubset(d)` checks that
both key names are present in the raw mapping (presence only, the values are
not inspected). -/
def hasRequiredKeys (d : RawDict) : Bool :=
  requiredKeys.all (fun k => d.any (fun kv => kv.1 == k))

/-- The names visible on a live `Plan` object (`dir(self)`): the annotated
data attributes set in `__init__`, the methods, and the standard object
dunders.  The key filter in `Plan.from_dict` admits any of these. -/
def planDirNames : List String :=
  ["plan_path", "required_keys", "valid", "name", "dockerfile", "volumes",
   "ports", "exposed_ports", "environment", "detach", "tty", "image",
   "version", "command", "container",
   "has_required_keys", "from_dict", "validate_volumes", "populate_ports",
   "check_host_ports", "has_dockerfile", "add_commands", "image_version",
   "run_options",
   "__init__", "__repr__", "__doc__", "__module__", "__dict__",
   "__weakref__", "__class__"]

/-- One step of the `Plan.from_dict` assignment loop:
`setattr(self, k, v) if k in dir(self) else None`.  Keys outside
`dir(self)` are dropped.  Assignments whose key or value shape is not
exercised by any plan in this development (volumes, list-shaped commands,
environment lists, assignments that would shadow a method) leave the
modelled state unchanged. -/
def setAttr (p : PlanState) (k : String) (v : Val) : PlanState :=
  if (k ∈ planDirNames : Bool) = false then p
  else if k = "name" then match v with | .vstr s => { p with name := s } | _ => p
  else if k = "image" then match v with | .vstr s => { p with image := s } | _ => p
  else if k = "dockerfile" then match v with | .vstr s => { p with dockerfile := s } | _ => p
  else if k = "version" then match v with | .vstr s => { p with version := s } | _ => p
  else if k = "command" then match v with | .vstr s => { p with command := s } | _ => p
  else if k = "valid" then match v with | .vbool b => { p with valid := b } | _ => p
  else if k = "detach" then match v with | .vbool b => { p with detach := b } | _ => p
  else if k = "tty" then match v with | .vbool b => { p with tty := b } | _ => p
  else if k = "ports" then { p with ports := v }
  else p

/- `Plan.populate_ports`, acting on the raw `ports` value and the
`exposed_ports` accumulator.  Branches, in source order:
* `if not self.ports: return` — falsy values (0, empty dict, empty list,
  empty string, False) contribute nothing;
* `isinstance(self.ports, int)` — a single port appends `(p, p)`
  (Python `bool` is a subclass of `int`, so `True` counts as the port 1);
* `isinstance(self.ports, dict)` — the loop body appends the first entry
  and then hits a `return` placed inside the loop, so the remaining
  entries of the mapping are never appended;
* `isinstance(self.ports, list)` — each element is assigned to
  `self.ports` and processed recursively, accumulating. -/
mutual
/-- Normalisation of one raw `ports` value into `exposed_ports` pairs. -/
def populatePorts : Val → List (Nat × Nat) → List (Nat × Nat)
  | .vstr _, acc => acc
  | .vnat n, acc => if n = 0 then acc else acc ++ [(n, n)]
  | .vbool b, acc => if b then acc ++ [(1, 1)] else acc
  | .vmap [], acc => acc
  | .vmap (e :: _), acc => acc ++ [e]
  | .vlist items, acc => populatePortsList items acc
/-- The list branch of `populate_ports`: re-dispatch once per element. -/
def populatePortsList : ValList → List (Nat × Nat) → List (Nat × Nat)
  | .nil, acc => acc
  | .cons m rest, acc => populatePortsList rest (populatePorts m acc)
end

/-- The loop of `Plan.check_host_ports`: walk `exposed_ports`, flag the plan
invalid whenever an `outside` port was already seen, and record every
`outside` port seen so far in `h`. -/
def checkHostPortsAux : List (Nat × Nat) → List Nat → Bool → Bool
  | [], _, valid => valid
  | (_, outside) :: rest, h, valid =>
    checkHostPortsAux rest (h ++ [outside]) (if outside ∈ h then false else valid)

/-- `Plan.check_host_ports`. -/
def checkHostPorts (p : PlanState) : PlanState :=
  { p with valid := checkHostPortsAux p.exposed_ports [] p.valid }

/-- `Plan.from_dict`: warn-and-invalidate on missing required keys, apply
the filtered assignment loop, normalise ports, check host-port collisions,
then reset the raw `ports` field to the empty mapping.
(`validate_volumes` runs between the loop and `populate_ports` in the
source; it reads and rewrites only `volumes`, which is not modelled, and
can only ever lower `valid`.) -/
def fromDict (p0 : PlanState) (d : RawDict) : PlanState :=
  let p1 := if hasRequiredKeys d then p0 else { p0 with valid := false }
  let p2 := d.foldl (fun p kv => setAttr p kv.1 kv.2) p1
  let p3 := { p2 with exposed_ports := populatePorts p2.ports p2.exposed_ports }
  let p4 := checkHostPorts p3
  { p4 with ports := .vmap [] }

/-- Python's `pat in s` substring test at a given position: does `l` start
with `pat`? -/
def startsWithSeq (pat l : List Char) : Bool :=
  l.take pat.length == pat

/-- Python's `pat in s` substring containment, over the characters of a
string. -/
def hasSubSeq (pat : List Char) : List Char → Bool
  | [] => pat == []
  | c :: rest => startsWithSeq pat (c :: rest) || hasSubSeq pat rest

/-- Substring containment on a plan's `dockerfile` key is checked against
the upper-cased text; `Plan.has_dockerfile` requires a non-empty value
containing `FROM`. -/
def hasDockerfile (p : PlanState) : Bool :=
  if p.dockerfile.length ≤ 0 then false
  else hasSubSeq ("FROM".data) (p.dockerfile.toUpper.data)

/-- `Plan.image_version`: `image:version`, with the version overridden to
`dwnlocal` when the plan carries an inline dockerfile. -/
def imageVersion (p : PlanState) : String :=
  p.image ++ ":" ++ (if hasDockerfile p then "dwnlocal" else p.version)

/-- The keyword arguments built by `Plan.run_options` for the main
container start (`volumes` omitted, as above). -/
structure RunOptions where
  name : String
  stdout : Bool
  stderr : Bool
  command : String
  remove : Bool
  ports : Val
  tty : Bool
  stdin_open : Bool
  environment : List String
  detach : Bool
  deriving Repr, DecidableEq

/-- `Plan.run_options`. -/
def runOptions (p : PlanState) : RunOptions :=
  { name := p.name
    stdout := true
    stderr := true
    command := p.command
    remove := true
    ports := p.ports
    tty := p.tty
    stdin_open := if p.tty then p.tty else false
    environment := p.environment
    detach := true }

/-- `Config.object_name`: `f'{self.object_prefix()}_{p}'`, with the
persisted random object prefix passed in as `pfx`. -/
def objectName (pfx p : String) : String :=
  pfx ++ "_" ++ p

/-- `Container.get_container_name`: the main container's name. -/
def getContainerName (pfx : String) (p : PlanState) : String :=
  objectName pfx p.name

/-- `Container.get_net_container_name`: the shared stem of all proxy
container names for a plan. -/
def getNetContainerName (pfx : String) (p : PlanState) : String :=
  objectName pfx p.name ++ "_net_"

/-- Decimal digits of `n`, most significant first, fuelled by `n` itself so
that the recursion is structural; embeds Python's `f'{n}'` formatting of a
non-negative int. -/
def natCharsAux : Nat → Nat → List Char
  | 0, _ => []
  | fuel + 1, n =>
    if n = 0 then []
    else natCharsAux fuel (n / 10) ++ [Nat.digitChar (n % 10)]

/-- Decimal character representation of a natural number. -/
def natChars (n : Nat) : List Char :=
  if n = 0 then ['0'] else natCharsAux n n

/-- Decimal string representation of a natural number (`str(n)`). -/
def natStr (n : Nat) : String :=
  String.mk (natChars n)

/-- `Container.get_net_container_name_with_ports`:
`f'{self.get_net_container_name()}{outside}_{inside}'`. -/
def getNetContainerNameWithPorts (pfx : String) (p : PlanState) (outside inside : Nat) : String :=
  getNetContainerName pfx p ++ natStr outside ++ "_" ++ natStr inside

/-- Python's `name.split('_')`: every separator occurrence delimits a
field, empty fields are kept. -/
def pySplit (sep : Char) : List Char → List (List Char)
  | [] => [[]]
  | c :: rest =>
    if c = sep then [] :: pySplit sep rest
    else
      match pySplit sep rest with
      | [] => [[c]]
      | t :: ts => (c :: t) :: ts

/-- The per-container body of `Container.ports`: skip names not containing
`_net_`; otherwise split the name on `'_'`, take the trailing two tokens
(`candidate[-2:]`), and — when there are exactly two — return them as the
`(outside, inside)` string pair that gets appended to the result. -/
def portTokens (name : String) : Option (String × String) :=
  if hasSubSeq ("_net_".data) name.data = false then none
  else
    match (pySplit '_' name.data).drop ((pySplit '_' name.data).length - 2) with
    | [a, b] => some (String.mk a, String.mk b)
    | _ => none

/-- Decimal interpretation of a token, used to state the claim-side reading
of the `(outside, inside)` pair recovered by `Container.ports`. -/
def parseNat (s : String) : Nat :=
  s.data.foldl (fun a c => 10 * a + (c.toNat - Char.toNat '0')) 0

/-- The keyword arguments of the `containers.run` call issued by
`Container.run_net` for one proxy container. -/
structure NetRunOpts where
  image : String
  detach : Bool
  remote_host : String
  remote_port : Nat
  local_port : Nat
  stderr : Bool
  stdout : Bool
  remove : Bool
  network : String
  ports : List (Nat × Nat)
  name : String
  deriving Repr, DecidableEq

/-- One container start issued by `Container.run`: either the main service
container or a network proxy container. -/
inductive RunAction where
  | mainRun (image : String) (network : String) (opts : RunOptions)
  | netRun (opts : NetRunOpts)
  deriving Repr, DecidableEq

/-- `Container.run_net`: the proxy-container start for one port pair, with
the network image `netImage` and shared network `netw` read from config. -/
def runNetAction (pfx netImage netw : String) (p : PlanState) (outside inside : Nat) : RunAction :=
  .netRun
    { image := netImage
      detach := true
      remote_host := getContainerName pfx p
      remote_port := inside
      local_port := outside
      stderr := true
      stdout := true
      remove := true
      network := netw
      ports := [(outside, outside)]
      name := getNetContainerNameWithPorts pfx p outside inside }

/-- `Container.run` as the trace of container starts it issues: the main
container (with `opts['name']` overridden to the derived name) followed by
one `run_net` start per `exposed_ports` entry, where
`inside, outside = port_map[0], port_map[1]`.  The provisioning calls
(`_ensure_net_exists`, `_ensure_image_exists`) are modelled separately. -/
def runTrace (pfx netImage netw : String) (p : PlanState) : List RunAction :=
  RunAction.mainRun (imageVersion p) netw { runOptions p with name := getContainerName pfx p }
    :: p.exposed_ports.map (fun pm => runNetAction pfx netImage netw p pm.2 pm.1)

/-- The proxy-container starts contained in a trace. -/
def netRunsOf (tr : List RunAction) : List NetRunOpts :=
  tr.filterMap (fun a => match a with | .netRun o => some o | _ => none)

/-- Answers of the container runtime during `_ensure_net_exists`, as a
function of how many image builds and network creates have been performed
so far: `imageExists b` tells whether `images.get` succeeds after `b`
builds, `networkExists c` whether `networks.get` succeeds after `c`
creates. -/
structure NetClient where
  imageExists : Nat → Bool
  networkExists : Nat → Bool

/-- `Container._ensure_net_exists` with explicit fuel: `images.get` raising
`ImageNotFound` triggers a build and a recursive re-check; otherwise
`networks.get` raising `NotFound` triggers a network create and a recursive
re-check; otherwise the call returns.  `none` means the recursion was still
running after `fuel` nested calls. -/
def ensureNetExists (c : NetClient) : Nat → Nat → Nat → Option Unit
  | _, _, 0 => none
  | builds, creates, fuel + 1 =>
    if c.imageExists builds = false then
      ensureNetExists c (builds + 1) creates fuel
    else if c.networkExists creates = false then
      ensureNetExists c builds (creates + 1) fuel
    else some ()

/-- Termination of `_ensure_net_exists` against a given client: some fuel
bound suffices for the call to return. -/
def EnsureNetTerminates (c : NetClient) : Prop :=
  ∃ fuel, ensureNetExists c 0 0 fuel = some ()

/-- Outcome of one `container.stop()` call. -/
inductive StopOutcome where
  | ok
  | notFound
  | otherError (msg : String)
  deriving Repr, DecidableEq

/-- A container as seen by `Container.stop`: its name together with how its
`stop()` call will behave. -/
structure ContainerRec where
  name : String
  outcome : StopOutcome
  deriving Repr, DecidableEq

/-- Observable events of the `Container.stop` loop. -/
inductive StopEvent where
  | attempted (name : String)
  | warned (name : String)
  deriving Repr, DecidableEq

/-- One iteration of `Container.stop`'s loop: `container.stop()` is
attempted inside `try`; `NotFound` is swallowed (`pass`), any other
exception is caught and reported (`console.warn`); in every case the loop
proceeds to the next container. -/
def stopStep (log : List StopEvent) (c : ContainerRec) : List StopEvent :=
  match c.outcome with
  | .ok => log ++ [.attempted c.name]
  | .notFound => log ++ [.attempted c.name]
  | .otherError _ => log ++ [.attempted c.name, .warned c.name]

/-- `Container.stop`: fold the loop body over the plan's containers. -/
def stopRun (cs : List ContainerRec) : List StopEvent :=
  cs.foldl stopStep []

/-- The names on which a stop was attempted, in order. -/
def attemptedNames (log : List StopEvent) : List String :=
  log.filterMap (fun e => match e with | .attempted n => some n | _ => none)

/-- `Container.containers`: of all running containers, keep those whose
name equals the main container name or starts with the proxy-name stem. -/
def containersOf (pfx : String) (p : PlanState) (running : List ContainerRec) : List ContainerRec :=
  running.filter (fun c =>
    c.name == getContainerName pfx p
      || startsWithSeq (getNetContainerName pfx p).data c.name.data)

/-- `Loader.load_dist_plans`: every `*.yml` document found under the dist
plan directory is parsed unconditionally into a registered plan. -/
def loadDistPlans (files : List (String × RawDict)) : List PlanState :=
  files.map (fun f => fromDict (initPlan f.1) f.2)

/-- Result of `yaml.load` on one user plan file: `none` for an empty
document. -/
abbrev UserFile : Type := String × Option RawDict

/-- Whether `load_user_plans` registers a plan for this file: empty
documents and empty mappings are skipped by `if not d: continue`. -/
def userDocLoaded (f : UserFile) : Bool :=
  match f.2 with
  | none => false
  | some d => !d.isEmpty

/-- `Loader.load_user_plans`: for each file, skip falsy documents, then
evaluate `d['name']` (for the duplicate-name debug check) — which raises
`KeyError` when the document has no `name` key, aborting the whole load —
and otherwise parse and register the plan.  The duplicate check itself only
logs and does not alter the registered plans. -/
def loadUserPlans (plans0 : List PlanState) (files : List UserFile) :
    Except String (List PlanState) :=
  files.foldlM
    (fun plans f =>
      match f.2 with
      | none => pure plans
      | some d =>
        if d.isEmpty then pure plans
        else
          match d.find? (fun kv => kv.1 == "name") with
          | none => Except.error "KeyError: name"
          | some _ => pure (plans ++ [fromDict (initPlan f.1) d]))
    plans0

/-- `Loader.__init__`: dist plans first, then user plans appended. -/
def loaderInit (dist : List (String × RawDict)) (user : List UserFile) :
    Except String (List PlanState) :=
  loadUserPlans (loadDistPlans dist) user

/-- The plans `load_user_plans` registers when no file aborts the load. -/
def userPlansList (files : List UserFile) : List PlanState :=
  (files.filter userDocLoaded).map
    (fun f => fromDict (initPlan f.1) (f.2.getD []))

/-- Whether a user plan file survives the `d['name']` access in
`load_user_plans`: its document is falsy (skipped) or carries a `name`
key. -/
def userFileNameOk (f : UserFile) : Bool :=
  match f.2 with
  | none => true
  | some d => d.isEmpty || (d.find? (fun kv => kv.1 == "name")).isSome

/-- A runtime client whose network exists but whose image build completes
without ever making the image exist (a silently failing build). -/
def silentBuildClient : NetClient :=
  { imageExists := fun _ => false, networkExists := fun _ => true }

/-- The main-container starts contained in a trace. -/
def mainRunsOf (tr : List RunAction) : List RunOptions :=
  tr.filterMap (fun a => match a with | .mainRun _ _ o => some o | _ => none)

/-- The raw mapping of the specification's scenario plan
`{name: tool, image: vendor/tool, ports: {8080: 9090}}`. -/
def toolScenarioDict : RawDict :=
  [("name", .vstr "tool"), ("image", .vstr "vendor/tool"),
   ("ports", .vmap [(8080, 9090)])]

/-! Helper lemmas about the validation pipeline. -/

/-- Once `check_host_ports` has flagged the plan invalid, it stays
invalid for the rest of the loop. -/
theorem checkHostPortsAux_false (l : List (Nat × Nat)) :
    ∀ h : List Nat, checkHostPortsAux l h false = false := by
  induction l with
  | nil => intro h; rfl
  | cons x rest ih =>
    intro h
    cases x with
    | mk a b => simp [checkHostPortsAux, ih]

/-- If some pair of the remaining list carries an `outside` port already
recorded in `h`, the loop ends with `valid = false`. -/
theorem checkHostPortsAux_mem (l : List (Nat × Nat)) :
    ∀ (h : List Nat) (v : Bool), (∃ pr ∈ l, pr.2 ∈ h) →
      checkHostPortsAux l h v = false := by
  induction l with
  | nil =>
    rintro h v ⟨pr, hpr, _⟩
    simp at hpr
  | cons x rest ih =>
    rintro h v ⟨pr, hpr, hmem⟩
    cases x with
    | mk a b =>
      rcases List.mem_cons.mp hpr with heq | hpr'
      · subst heq
        simp only [checkHostPortsAux, if_pos hmem]
        exact checkHostPortsAux_false _ _
      · simp only [checkHostPortsAux]
        exact ih _ _ ⟨pr, hpr', List.mem_append_left _ hmem⟩

/-- A duplicated `outside` port in the remaining list forces
`valid = false`. -/
theorem checkHostPortsAux_dup (l : List (Nat × Nat)) :
    ∀ (h : List Nat) (v : Bool), ¬ (l.map Prod.snd).Nodup →
      checkHostPortsAux l h v = false := by
  induction l with
  | nil => intro h v hd; simp at hd
  | cons x rest ih =>
    intro h v hd
    cases x with
    | mk a b =>
      by_cases hx : b ∈ rest.map Prod.snd
      · obtain ⟨pr, hpr, hsnd⟩ := List.mem_map.mp hx
        simp only [checkHostPortsAux]
        exact checkHostPortsAux_mem _ _ _
          ⟨pr, hpr, by rw [hsnd]; exact List.mem_append_right _ (by simp)⟩
      · rw [List.map_cons] at hd
        have hrest : ¬ (rest.map Prod.snd).Nodup := by
          intro hn
          exact hd (List.nodup_cons.mpr ⟨hx, hn⟩)
        simp only [checkHostPortsAux]
        exact ih _ _ hrest

/-- An assignment-loop step for a key other than `valid` leaves the valid
flag unchanged. -/
theorem setAttr_valid_of_ne (p : PlanState) (k : String) (v : Val)
    (h : k ≠ "valid") : (setAttr p k v).valid = p.valid := by
  unfold setAttr
  split_ifs <;> first | rfl | (cases v <;> rfl) | exact absurd (by assumption) h

/-- The whole assignment loop leaves the valid flag unchanged when the raw
mapping has no `valid` key. -/
theorem foldl_setAttr_valid (d : RawDict) :
    ∀ p : PlanState, "valid" ∉ d.map Prod.fst →
      (d.foldl (fun p kv => setAttr p kv.1 kv.2) p).valid = p.valid := by
  induction d with
  | nil => intro p _; rfl
  | cons kv rest ih =>
    intro p h
    rw [List.map_cons, List.mem_cons, not_or] at h
    rw [List.foldl_cons, ih _ h.2, setAttr_valid_of_ne _ _ _ (fun he => h.1 he.symm)]

/-- When the required keys are missing and the raw mapping does not itself
assign `valid`, the parsed plan is invalid. -/
theorem fromDict_invalid (p0 : PlanState) (d : RawDict)
    (hk : hasRequiredKeys d = false) (hv : "valid" ∉ d.map Prod.fst) :
    (fromDict p0 d).valid = false := by
  simp only [fromDict, checkHostPorts, hk, Bool.false_eq_true, if_false]
  rw [foldl_setAttr_valid d _ hv]
  exact checkHostPortsAux_false _ _

/-- Names attempted by the stop loop, threaded through the fold: every
container contributes exactly one attempt, whatever its outcome. -/
theorem attemptedNames_foldl (cs : List ContainerRec) :
    ∀ log, attemptedNames (cs.foldl stopStep log)
      = attemptedNames log ++ cs.map (fun c => c.name) := by
  induction cs with
  | nil => intro log; simp
  | cons c rest ih =>
    intro log
    rw [List.foldl_cons, ih]
    cases hc : c.outcome <;>
      simp [stopStep, hc, attemptedNames, List.filterMap_append]

/-- Against the silently failing build client, `_ensure_net_exists` is
still running whatever fuel it is given. -/
theorem silentBuildClient_stuck (fuel : Nat) :
    ∀ b c, ensureNetExists silentBuildClient b c fuel = none := by
  induction fuel with
  | zero => intro b c; rfl
  | succ f ih =>
    intro b c
    have h1 : silentBuildClient.imageExists b = false := rfl
    simp [ensureNetExists, h1, ih]

/-- One user-plan load succeeds and registers exactly the non-skipped
files, provided every nonempty user document carries a `name` key. -/
theorem loadUserPlans_ok (files : List UserFile) :
    ∀ plans0, (∀ f ∈ files, userFileNameOk f = true) →
      loadUserPlans plans0 files = Except.ok (plans0 ++ userPlansList files) := by
  induction files with
  | nil =>
    intro plans0 _
    simp [loadUserPlans, userPlansList]
    rfl
  | cons f rest ih =>
    intro plans0 hall
    have hf : userFileNameOk f = true := hall f (List.mem_cons_self f rest)
    have hrest : ∀ g ∈ rest, userFileNameOk g = true :=
      fun g hg => hall g (List.mem_cons_of_mem f hg)
    rcases f with ⟨path, _ | d⟩
    · have hskip : loadUserPlans plans0 ((path, none) :: rest)
          = loadUserPlans plans0 rest := by
        simp [loadUserPlans, List.foldlM_cons]
      rw [hskip, ih plans0 hrest]
      simp [userPlansList, userDocLoaded, List.filter_cons]
    · by_cases hd : d = []
      · have hskip : loadUserPlans plans0 ((path, some d) :: rest)
            = loadUserPlans plans0 rest := by
          simp [loadUserPlans, List.foldlM_cons, hd]
        rw [hskip, ih plans0 hrest]
        simp [userPlansList, userDocLoaded, List.filter_cons, hd]
      · have hsome : (d.find? (fun kv => kv.1 == "name")).isSome = true := by
          simpa [userFileNameOk, hd] using hf
        rcases hfind : d.find? (fun kv => kv.1 == "name") with _ | kv
        · rw [hfind] at hsome; simp at hsome
        · have hstep : loadUserPlans plans0 ((path, some d) :: rest)
              = loadUserPlans (plans0 ++ [fromDict (initPlan path) d]) rest := by
            simp [loadUserPlans, List.foldlM_cons, hd, hfind]
          rw [hstep, ih _ hrest]
          simp [userPlansList, userDocLoaded, List.filter_cons, hd,
            List.append_assoc]

/-! Helper lemmas about strings, decimal formatting and splitting. -/

/-- Unfolding the character list of a constructed string. -/
theorem data_mk (l : List Char) : (String.mk l).data = l := rfl

/-- Characters of the `_net_` marker. -/
theorem data_net_str : "_net_".data = ['_', 'n', 'e', 't', '_'] := rfl

/-- Characters of a single underscore. -/
theorem data_underscore : "_".data = ['_'] := rfl

/-- Strings with equal character lists are equal. -/
theorem str_eq_of_data (a b : String) (h : a.data = b.data) : a = b := by
  cases a
  cases b
  exact congrArg String.mk h

/-- Python's split never produces an empty token list. -/
theorem pySplit_ne_nil (sep : Char) : ∀ l : List Char, pySplit sep l ≠ [] := by
  intro l
  induction l with
  | nil => simp [pySplit]
  | cons c rest ih =>
    by_cases hc : c = sep
    · simp [pySplit, hc]
    · rcases hr : pySplit sep rest with _ | ⟨t, ts⟩
      · exact absurd hr ih
      · simp [pySplit, hc, hr]

/-- Splitting at a separator occurrence splits the two sides
independently. -/
theorem pySplit_sep_append (sep : Char) (ys : List Char) :
    ∀ xs : List Char,
      pySplit sep (xs ++ sep :: ys) = pySplit sep xs ++ pySplit sep ys := by
  intro xs
  induction xs with
  | nil => simp [pySplit]
  | cons c rest ih =>
    by_cases hc : c = sep
    · simp [pySplit, hc, ih]
    · rcases hr : pySplit sep rest with _ | ⟨t, ts⟩
      · exact absurd hr (pySplit_ne_nil sep rest)
      · simp [pySplit, hc, ih, hr]

/-- A separator-free chunk is a single token. -/
theorem pySplit_not_mem (sep : Char) : ∀ l : List Char, sep ∉ l → pySplit sep l = [l] := by
  intro l
  induction l with
  | nil => intro _; rfl
  | cons c rest ih =>
    intro h
    rw [List.mem_cons, not_or] at h
    have hc : c ≠ sep := fun he => h.1 he.symm
    simp [pySplit, hc, ih h.2]

/-- The empty pattern is a substring of everything. -/
theorem hasSubSeq_nil_pat : ∀ l : List Char, hasSubSeq [] l = true := by
  intro l
  induction l with
  | nil => rfl
  | cons c rest _ => simp [hasSubSeq, startsWithSeq]

/-- A pattern is found inside any list that contains it contiguously. -/
theorem hasSubSeq_of_append (pat b : List Char) :
    ∀ a : List Char, hasSubSeq pat (a ++ (pat ++ b)) = true := by
  intro a
  induction a with
  | nil =>
    rcases pat with _ | ⟨pc, pr⟩
    · simpa using hasSubSeq_nil_pat b
    · have h1 : startsWithSeq (pc :: pr) ((pc :: pr) ++ b) = true := by
        simp [startsWithSeq, List.take_left]
      simpa [hasSubSeq] using Or.inl h1
  | cons c a ih => simp [hasSubSeq, ih]

/-- Value of a decimal digit character produced by the formatter. -/
theorem digitChar_val (d : Nat) (h : d < 10) :
    (Nat.digitChar d).toNat - Char.toNat '0' = d := by
  interval_cases d <;> decide

/-- Decimal digit characters are never underscores. -/
theorem digitChar_ne_underscore (d : Nat) (h : d < 10) : Nat.digitChar d ≠ '_' := by
  interval_cases d <;> decide

/-- Reading the formatted digits back with the decimal interpretation
recovers the number. -/
theorem natCharsAux_val : ∀ fuel n : Nat, n ≤ fuel →
    List.foldl (fun a c => 10 * a + (c.toNat - Char.toNat '0')) 0 (natCharsAux fuel n) = n := by
  intro fuel
  induction fuel with
  | zero =>
    intro n h
    have hn : n = 0 := by omega
    subst hn
    rfl
  | succ f ih =>
    intro n h
    by_cases hn : n = 0
    · subst hn; rfl
    · have hdiv : n / 10 < n := Nat.div_lt_self (Nat.pos_of_ne_zero hn) (by norm_num)
      simp only [natCharsAux, if_neg hn]
      rw [List.foldl_append, ih (n / 10) (by omega)]
      simp only [List.foldl_cons, List.foldl_nil]
      rw [digitChar_val (n % 10) (Nat.mod_lt _ (by norm_num))]
      omega

/-- The decimal interpretation inverts the decimal formatter. -/
theorem parseNat_natStr (n : Nat) : parseNat (natStr n) = n := by
  by_cases hn : n = 0
  · subst hn; rfl
  · simp only [parseNat, natStr, natChars, if_neg hn, data_mk]
    exact natCharsAux_val n n (le_refl n)

/-- Formatted digits never contain an underscore. -/
theorem underscore_not_mem_natCharsAux : ∀ fuel n : Nat, '_' ∉ natCharsAux fuel n := by
  intro fuel
  induction fuel with
  | zero => intro n; simp [natCharsAux]
  | succ f ih =>
    intro n
    by_cases hn : n = 0
    · simp [natCharsAux, hn]
    · simp only [natCharsAux, if_neg hn]
      intro hmem
      rcases List.mem_append.mp hmem with h | h
      · exact ih _ h
      · rw [List.mem_singleton] at h
        exact digitChar_ne_underscore _ (Nat.mod_lt _ (by norm_num)) h.symm

/-- A formatted number never contains an underscore. -/
theorem underscore_not_mem_natChars (n : Nat) : '_' ∉ natChars n := by
  by_cases hn : n = 0
  · simp only [natChars, if_pos hn]
    decide
  · simp only [natChars, if_neg hn]
    exact underscore_not_mem_natCharsAux n n

/-- Character-level shape of a generated proxy container name. -/
theorem netName_data (pfx : String) (p : PlanState) (outside inside : Nat) :
    (getNetContainerNameWithPorts pfx p outside inside).data
      = (pfx.data ++ '_' :: (p.name.data ++ ['_', 'n', 'e', 't']))
        ++ '_' :: (natChars outside ++ '_' :: natChars inside) := by
  simp [getNetContainerNameWithPorts, getNetContainerName, objectName, natStr,
    String.data_append, data_mk, data_net_str, data_underscore, List.append_assoc]

/-- What `Container.ports` extracts from a name whose split ends in two
known tokens. -/
theorem portTokens_split (name : String) (A : List (List Char)) (o i : List Char)
    (hsub : hasSubSeq ("_net_".data) name.data = true)
    (hsplit : pySplit '_' name.data = A ++ [o, i]) :
    portTokens name = some (String.mk o, String.mk i) := by
  unfold portTokens
  rw [hsub, hsplit]
  have hlen : (A ++ [o, i]).length - 2 = A.length := by simp
  rw [hlen, List.drop_left A [o, i]]
  simp

/-- A main-container start contributes nothing to the proxy starts of a
trace. -/
theorem netRunsOf_cons_main (i n : String) (o : RunOptions) (tr : List RunAction) :
    netRunsOf (RunAction.mainRun i n o :: tr) = netRunsOf tr := rfl

/-- A proxy-container start heads the proxy starts of a trace. -/
theorem netRunsOf_cons_net (o : NetRunOpts) (tr : List RunAction) :
    netRunsOf (RunAction.netRun o :: tr) = o :: netRunsOf tr := rfl

/-- The proxy starts issued by `Container.run`: one per `exposed_ports`
entry `(inside, outside)`, detached, auto-removing, on the shared network,
publishing `outside` to `outside`, named with the port pair and carrying
the three proxy environment variables. -/
theorem netRunsOf_runTrace (pfx netImage netw : String) (p : PlanState) :
    netRunsOf (runTrace pfx netImage netw p)
      = p.exposed_ports.map (fun pm =>
          ({ image := netImage
             detach := true
             remote_host := objectName pfx p.name
             remote_port := pm.1
             local_port := pm.2
             stderr := true
             stdout := true
             remove := true
             network := netw
             ports := [(pm.2, pm.2)]
             name := getNetContainerNameWithPorts pfx p pm.2 pm.1 } : NetRunOpts)) := by
  unfold runTrace
  rw [netRunsOf_cons_main]
  generalize p.exposed_ports = l
  induction l with
  | nil => rfl
  | cons x rest ih =>
    rw [List.map_cons, List.map_cons]
    simp only [runNetAction] at ih ⊢
    rw [netRunsOf_cons_net, ih]
    rfl

/-! Claim theorems. -/

/-- Claim C1 (code bug): the dict branch of `Plan.populate_ports` is
claimed to emit one `(inside, outside)` pair per entry of the mapping with
no silent truncation, but the `return` statement sits inside the loop, so
only the first entry of a two-entry mapping is emitted: the raw ports value
`{1111: 2222, 3333: 4444}` normalises to `[(1111, 2222)]` alone, both at
the `populate_ports` level and through the whole `from_dict` pipeline. -/
theorem claim_C1_dict_truncation :
    populatePorts (Val.vmap [(1111, 2222), (3333, 4444)]) [] = [(1111, 2222)]
    ∧ (fromDict (initPlan "web.yml")
        [("name", Val.vstr "web"), ("image", Val.vstr "x/web"),
         ("ports", Val.vmap [(1111, 2222), (3333, 4444)])]).exposed_ports
      = [(1111, 2222)] :=
  ⟨rfl, rfl⟩

/-- Claim C4, counterexample: the raw mapping `{name: '', image: ''}` has
both required keys present but empty, and parses to a plan with
`valid = true` whose name and image are empty strings — refuting the claim
that `valid = true` implies non-empty name and image. -/
theorem claim_C4_counterexample :
    hasRequiredKeys [("name", Val.vstr ""), ("image", Val.vstr "")] = true
    ∧ (fromDict (initPlan "empty.yml")
        [("name", Val.vstr ""), ("image", Val.vstr "")]).valid = true
    ∧ (fromDict (initPlan "empty.yml")
        [("name", Val.vstr ""), ("image", Val.vstr "")]).name = ""
    ∧ (fromDict (initPlan "empty.yml")
        [("name", Val.vstr ""), ("image", Val.vstr "")]).image = "" :=
  ⟨rfl, rfl, rfl, rfl⟩

/-- Claim C4, amended: validity tracks key presence, not value
non-emptiness — for every raw mapping that does not itself assign the
`valid` attribute, a parsed plan with `valid = true` contains both the
`name` and `image` keys (their values may be empty strings). -/
theorem claim_C4_amended (path : String) (d : RawDict)
    (hnv : "valid" ∉ d.map Prod.fst)
    (hvalid : (fromDict (initPlan path) d).valid = true) :
    hasRequiredKeys d = true := by
  by_contra hk
  rw [fromDict_invalid (initPlan path) d (by simpa using hk) hnv] at hvalid
  simp at hvalid

/-- Witness for C4 amended at the mapping `{name: tool, image: img}`. -/
theorem claim_C4_amended_witness :
    ("valid" ∉ ([("name", Val.vstr "tool"), ("image", Val.vstr "img")] : RawDict).map Prod.fst)
    ∧ (fromDict (initPlan "w.yml")
        [("name", Val.vstr "tool"), ("image", Val.vstr "img")]).valid = true
    ∧ hasRequiredKeys [("name", Val.vstr "tool"), ("image", Val.vstr "img")] = true :=
  ⟨by decide, by decide, claim_C4_amended "w.yml" _ (by decide) (by decide)⟩

/-- Claim C5: after parsing, the raw `ports` field of every plan is reset
to the empty mapping, the options built by `run_options` therefore carry an
empty port-publication mapping, and every main-container start in a `run`
trace does too — only `exposed_ports` is consumed downstream. -/
theorem claim_C5_ports_reset (path : String) (d : RawDict) :
    (fromDict (initPlan path) d).ports = Val.vmap []
    ∧ (runOptions (fromDict (initPlan path) d)).ports = Val.vmap []
    ∧ ∀ pfx netImage netw : String,
        (mainRunsOf (runTrace pfx netImage netw (fromDict (initPlan path) d))).all
          (fun o => o.ports == Val.vmap []) = true := by
  refine ⟨rfl, rfl, ?_⟩
  intro pfx netImage netw
  simp [runTrace, mainRunsOf, runNetAction, runOptions]
  rfl

/-- Claim C6: proxy-container naming round-trips — parsing the trailing
two underscore-delimited tokens of
`get_net_container_name_with_ports(outside, inside)` exactly as
`Container.ports` does yields the decimal strings of `outside` and
`inside`, and reading those tokens as decimal numbers gives back the pair
`(outside, inside)`. -/
theorem claim_C6_round_trip (pfx : String) (p : PlanState) (outside inside : Nat) :
    portTokens (getNetContainerNameWithPorts pfx p outside inside)
      = some (natStr outside, natStr inside)
    ∧ parseNat (natStr outside) = outside
    ∧ parseNat (natStr inside) = inside := by
  refine ⟨?_, parseNat_natStr outside, parseNat_natStr inside⟩
  have hdata := netName_data pfx p outside inside
  have hsub : hasSubSeq ("_net_".data)
      (getNetContainerNameWithPorts pfx p outside inside).data = true := by
    rw [hdata]
    have hshape : (pfx.data ++ '_' :: (p.name.data ++ ['_', 'n', 'e', 't']))
          ++ '_' :: (natChars outside ++ '_' :: natChars inside)
        = (pfx.data ++ '_' :: p.name.data)
          ++ ("_net_".data
              ++ (natChars outside ++ '_' :: natChars inside)) := by
      simp [data_net_str, List.append_assoc]
    rw [hshape]
    exact hasSubSeq_of_append _ _ _
  have hsplit : pySplit '_' (getNetContainerNameWithPorts pfx p outside inside).data
      = pySplit '_' (pfx.data ++ '_' :: (p.name.data ++ ['_', 'n', 'e', 't']))
        ++ [natChars outside, natChars inside] := by
    rw [hdata, pySplit_sep_append, pySplit_sep_append, pySplit_sep_append,
      pySplit_sep_append,
      pySplit_not_mem _ _ (underscore_not_mem_natChars outside),
      pySplit_not_mem _ _ (underscore_not_mem_natChars inside)]
    simp
  exact portTokens_split _ _ _ _ hsub hsplit

/-- Claim C7: a plan whose normalised `exposed_ports` repeats an `outside`
(host-side) port is flagged invalid by `check_host_ports`. -/
theorem claim_C7_host_port_collision (path : String) (d : RawDict)
    (hdup : ¬ (((fromDict (initPlan path) d).exposed_ports.map Prod.snd).Nodup)) :
    (fromDict (initPlan path) d).valid = false := by
  simp only [fromDict, checkHostPorts] at hdup ⊢
  exact checkHostPortsAux_dup _ _ _ hdup

/-- Witness for C7 at `ports: [80, 80]`, which normalises to two pairs
sharing the host port 80. -/
theorem claim_C7_witness :
    ¬ (((fromDict (initPlan "dup.yml")
          [("name", Val.vstr "t"), ("image", Val.vstr "i"),
           ("ports", Val.vlist (.cons (.vnat 80) (.cons (.vnat 80) .nil)))]).exposed_ports.map
        Prod.snd).Nodup)
    ∧ (fromDict (initPlan "dup.yml")
        [("name", Val.vstr "t"), ("image", Val.vstr "i"),
         ("ports", Val.vlist (.cons (.vnat 80) (.cons (.vnat 80) .nil)))]).valid = false :=
  ⟨by decide, claim_C7_host_port_collision "dup.yml" _ (by decide)⟩

/-- Claim C2, counterexample: a user plan file whose document is missing
the `name` key makes `load_user_plans` evaluate `d['name']`, raising a
`KeyError` that aborts the whole load — the loader does not return
normally, refuting the claim for files in the user plan directory. -/
theorem claim_C2_counterexample :
    loaderInit [] [("broken.yml", some [("image", Val.vstr "img")])]
      = Except.error "KeyError: name" := rfl

/-- Claim C2, amended: a plan file missing a required key is marked
invalid by the required-key check (when the mapping does not itself assign
`valid`) and loading continues for all other plans, provided every
nonempty user plan document still carries a `name` key — dist plans always
load, and user plans missing only `image` load; but a user plan document
lacking `name` raises a `KeyError` that aborts the whole load. -/
theorem claim_C2_amended (dist : List (String × RawDict)) (user : List UserFile)
    (hnames : ∀ f ∈ user, userFileNameOk f = true) :
    loaderInit dist user = Except.ok (loadDistPlans dist ++ userPlansList user)
    ∧ ∀ f ∈ dist, hasRequiredKeys f.2 = false → "valid" ∉ f.2.map Prod.fst →
        (fromDict (initPlan f.1) f.2).valid = false
          ∧ fromDict (initPlan f.1) f.2 ∈ loadDistPlans dist := by
  constructor
  · unfold loaderInit
    exact loadUserPlans_ok user (loadDistPlans dist) hnames
  · intro f hf hk hv
    refine ⟨fromDict_invalid _ _ hk hv, ?_⟩
    exact List.mem_map.mpr ⟨f, hf, rfl⟩

/-- Witness for C2 amended: one dist plan missing `name` (still loads,
continuing past the spec error) and one complete user plan. -/
theorem claim_C2_amended_witness :
    loaderInit [("incomplete.yml", [("image", Val.vstr "img")])]
        [("ok.yml", some [("name", Val.vstr "tool"), ("image", Val.vstr "img")])]
      = Except.ok
          (loadDistPlans [("incomplete.yml", [("image", Val.vstr "img")])]
            ++ userPlansList
                [("ok.yml", some [("name", Val.vstr "tool"), ("image", Val.vstr "img")])]) :=
  (claim_C2_amended _ _ (by decide)).1

/-- Claim C3, counterexample: against a client whose build succeeds
without making the image exist, `_ensure_net_exists` recurses unboundedly
and never terminates — refuting termination for every sequence of
runtime-client answers. -/
theorem claim_C3_counterexample : ¬ EnsureNetTerminates silentBuildClient := by
  rintro ⟨fuel, hf⟩
  rw [silentBuildClient_stuck fuel 0 0] at hf
  exact Option.noConfusion hf

/-- Claim C3, amended: `_ensure_net_exists` reacts to a missing image or
network by creating the resource and re-checking via recursion; the
recursion terminates (within three nested checks) for every client whose
first build makes the image exist and whose first create makes the network
exist, but it is not a bounded retry — per the counterexample it never
terminates when the build never makes the image exist. -/
theorem claim_C3_amended (c : NetClient)
    (himg : ∀ b, 1 ≤ b → c.imageExists b = true)
    (hnet : ∀ n, 1 ≤ n → c.networkExists n = true) :
    ensureNetExists c 0 0 3 = some () ∧ EnsureNetTerminates c := by
  have h3 : ensureNetExists c 0 0 3 = some () := by
    rcases hi : c.imageExists 0 <;> rcases hn : c.networkExists 0 <;>
      simp [ensureNetExists, hi, hn, himg 1 (by omega), hnet 1 (by omega)]
  exact ⟨h3, 3, h3⟩

/-- Witness for C3 amended at a client whose image and network always
exist. -/
theorem claim_C3_amended_witness :
    ensureNetExists ⟨fun _ => true, fun _ => true⟩ 0 0 3 = some () :=
  (claim_C3_amended ⟨fun _ => true, fun _ => true⟩
    (fun _ _ => rfl) (fun _ _ => rfl)).1

/-- Claim C9: `Container.stop` attempts a stop on every container in the
list — whatever the pattern of per-container outcomes, since a `NotFound`
is swallowed and any other exception only produces a warning — and in the
three-container scenario a not-found on the second container does not
prevent the third attempt. -/
theorem claim_C9_stop_attempts_all (cs : List ContainerRec) :
    attemptedNames (stopRun cs) = cs.map (fun c => c.name)
    ∧ attemptedNames (stopRun
        [⟨"dwn_x_tool", .ok⟩,
         ⟨"dwn_x_tool_net_9090_8080", .notFound⟩,
         ⟨"dwn_x_tool_net_7070_6060", .otherError "api error"⟩])
      = ["dwn_x_tool", "dwn_x_tool_net_9090_8080", "dwn_x_tool_net_7070_6060"] := by
  constructor
  · simpa [stopRun, attemptedNames] using attemptedNames_foldl cs []
  · rfl

/-- Claim C10: the `dir(self)`-based key filter admits `valid`, so the raw
mapping `{valid: true}` — which fails the required-key check — still parses
to a plan whose valid flag is true, with empty name and image. -/
theorem claim_C10_valid_override :
    ("valid" ∈ planDirNames)
    ∧ hasRequiredKeys [("valid", Val.vbool true)] = false
    ∧ (fromDict (initPlan "evil.yml") [("valid", Val.vbool true)]).valid = true
    ∧ (fromDict (initPlan "evil.yml") [("valid", Val.vbool true)]).name = ""
    ∧ (fromDict (initPlan "evil.yml") [("valid", Val.vbool true)]).image = "" :=
  ⟨by decide, rfl, rfl, rfl, rfl⟩

/-- Claim C8: `run` starts exactly one proxy per exposed port pair
`(inside, outside)` — detached, auto-removing, on the shared network,
publishing host port `outside` to container port `outside`, named by the
port pair and carrying `REMOTE_HOST = mainName`, `REMOTE_PORT = inside`,
`LOCAL_PORT = outside` — and in the scenario plan
`{name: tool, image: vendor/tool, ports: {8080: 9090}}` the exposed pairs
are `[(8080, 9090)]` and the single proxy is named
`<prefix>_tool_net_9090_8080` with `REMOTE_PORT = 8080`,
`LOCAL_PORT = 9090`. -/
theorem claim_C8_proxy_starts (pfx netImage netw : String) (p : PlanState) :
    netRunsOf (runTrace pfx netImage netw p)
      = p.exposed_ports.map (fun pm =>
          ({ image := netImage
             detach := true
             remote_host := objectName pfx p.name
             remote_port := pm.1
             local_port := pm.2
             stderr := true
             stdout := true
             remove := true
             network := netw
             ports := [(pm.2, pm.2)]
             name := getNetContainerNameWithPorts pfx p pm.2 pm.1 } : NetRunOpts))
    ∧ (fromDict (initPlan "tool.yml") toolScenarioDict).exposed_ports = [(8080, 9090)]
    ∧ netRunsOf (runTrace pfx netImage netw (fromDict (initPlan "tool.yml") toolScenarioDict))
        = [{ image := netImage
             detach := true
             remote_host := pfx ++ "_tool"
             remote_port := 8080
             local_port := 9090
             stderr := true
             stdout := true
             remove := true
             network := netw
             ports := [(9090, 9090)]
             name := pfx ++ "_tool_net_9090_8080" }] := by
  refine ⟨netRunsOf_runTrace pfx netImage netw p, rfl, ?_⟩
  rw [netRunsOf_runTrace]
  have hname : (fromDict (initPlan "tool.yml") toolScenarioDict).name = "tool" := rfl
  have hexp : (fromDict (initPlan "tool.yml") toolScenarioDict).exposed_ports
      = [(8080, 9090)] := rfl
  have h1 : objectName pfx "tool" = pfx ++ "_tool" := by
    apply str_eq_of_data
    simp [objectName, String.data_append, data_underscore,
      show ("tool" : String).data = ['t', 'o', 'o', 'l'] from rfl,
      show ("_tool" : String).data = ['_', 't', 'o', 'o', 'l'] from rfl]
  have h2 : getNetContainerNameWithPorts pfx
        (fromDict (initPlan "tool.yml") toolScenarioDict) 9090 8080
      = pfx ++ "_tool_net_9090_8080" := by
    apply str_eq_of_data
    rw [netName_data]
    simp [String.data_append, hname,
      show natChars 9090 = ['9', '0', '9', '0'] from rfl,
      show natChars 8080 = ['8', '0', '8', '0'] from rfl,
      show ("tool" : String).data = ['t', 'o', 'o', 'l'] from rfl,
      show ("_tool_net_9090_8080" : String).data
          = ['_', 't', 'o', 'o', 'l', '_', 'n', 'e', 't', '_',
             '9', '0', '9', '0', '_', '8', '0', '8', '0'] from rfl]
  rw [hexp, List.map_cons, List.map_nil, hname, h1, h2]

end Dwn
